import Mathlib

/-!
Shallow embedding of `docs/source/conf.py` (the Lumino documentation build
configuration).  The build helpers `build_api_docs`, `build_examples` and
`setup`, together with the module-level version loading, are modelled as
pure state-passing functions over:

* an explicit filesystem (`FS`, a finite list of regular files);
* an oracle `Config` giving the result of `shutil.which` and the outcome
  of each `subprocess.check_call` (the effect of the external build tools
  on the documentation source tree is outside the model: the model records
  the invocation itself in the event trace);
* an event trace (`Event`) recording, in order, every console print,
  external process invocation, tree removal and copy the function performs.

Paths are lists of segments from an abstract root; `os.pardir` segments are
normalised eagerly, matching how the operating system resolves them when a
path is accessed.  Errors (`CalledProcessError`, missing files, an existing
`copytree` destination, missing JSON keys) are values of `Err`, and each
function returns its trace together with `Except Err FS`: an `Except.error`
result is an uncaught Python exception aborting the run at that point.
-/

/-- A filesystem path: segments from an abstract filesystem root. -/
abbrev FPath := List String

/-- Model of `os.path.join base seg` for one segment; the `os.pardir` segment `".."`
moves one directory up (normalised eagerly in the model). -/
def pjoin (base : FPath) (seg : String) : FPath :=
  if seg == ".." then base.dropLast else base ++ [seg]

/-- Model of `os.path.join` over several segments. -/
def pjoins (base : FPath) (segs : List String) : FPath :=
  segs.foldl pjoin base

/-- Rendering of a path used in the `print` messages of `conf.py`. -/
def pathStr (p : FPath) : String :=
  "/" ++ String.intercalate "/" p

/-- The filesystem: a finite list of regular files (path and content).
A directory exists exactly when some file lies at or below it. -/
structure FS where
  files : List (FPath × String)
deriving Repr, DecidableEq

/-- Errors a run can abort with: a failed `check_call`, a `TypeError` from a
`None` entry in the argument vector, filesystem errors of `shutil`, and the
manifest-reading errors of the module-level code. -/
inductive Err where
  | processErr (cmd : List (Option String)) (cwd : FPath)
  | typeErr
  | fileNotFound (p : FPath)
  | fileExists (p : FPath)
  | keyError (k : String)
  | parseError
deriving Repr, DecidableEq

/-- Observable actions of the script, in execution order. -/
inductive Event where
  | echo (msg : String)
  | checkCall (cmd : List (Option String)) (cwd : FPath)
  | rmtreeEv (p : FPath)
  | copytreeEv (src dest : FPath)
  | copyEv (src dest : FPath)
  | addCss (name : String)
deriving Repr, DecidableEq

/-- Model of `os.path.exists`: the path is a file, or a directory some file lies
under. -/
def FS.existsPath (fs : FS) (p : FPath) : Bool :=
  fs.files.any (fun f => p.isPrefixOf f.1)

/-- There is a regular file at exactly this path. -/
def FS.hasFile (fs : FS) (p : FPath) : Bool :=
  fs.files.any (fun f => f.1 == p)

/-- Content of the regular file at this path, if any. -/
def FS.lookup (fs : FS) (p : FPath) : Option String :=
  (fs.files.find? (fun f => f.1 == p)).map (fun f => f.2)

/-- Model of `shutil.rmtree p`: removes every file at or below `p`. -/
def FS.rmtree (fs : FS) (p : FPath) : FS :=
  ⟨fs.files.filter (fun f => !(p.isPrefixOf f.1))⟩

/-- The files of the copied tree: every file below `src`, re-rooted at
`dest`. -/
def mapTree (src dest : FPath) (files : List (FPath × String)) :
    List (FPath × String) :=
  files.filterMap (fun f =>
    if src.isPrefixOf f.1 then some (dest ++ f.1.drop src.length, f.2)
    else none)

/-- Model of `shutil.copytree src dest`: fails when `src` does not exist or when
`dest` already exists (no `dirs_exist_ok` in the source); otherwise adds a
copy of the `src` tree at `dest`. -/
def FS.copytree (fs : FS) (src dest : FPath) : Except Err FS :=
  if !(fs.existsPath src) then .error (.fileNotFound src)
  else if fs.existsPath dest then .error (.fileExists dest)
  else .ok ⟨fs.files ++ mapTree src dest fs.files⟩

/-- Model of `shutil.copy src dest` with `dest` a full file path: fails when `src`
is not a file, otherwise writes `src`'s content at `dest`, replacing any
previous file there. -/
def FS.copy (fs : FS) (src dest : FPath) : Except Err FS :=
  match fs.lookup src with
  | none => .error (.fileNotFound src)
  | some c => .ok ⟨(dest, c) :: fs.files.filter (fun f => !(f.1 == dest))⟩

/-- Environment oracle: `which` resolves a tool name (`shutil.which`, `none`
for not found), `exec` gives the outcome of `subprocess.check_call` on an
argument vector in a working directory (`none` = exit status 0, `some e` =
the exception raised). -/
structure Config where
  which : String → Option String
  exec : List (Option String) → FPath → Option Err

/-- Source line `HERE = osp.abspath(osp.dirname(__file__))`: the `docs/source`
directory of the checkout. -/
def HERE : FPath := ["lumino", "docs", "source"]

/-- Source line `docs = osp.join(HERE, os.pardir)`. -/
def docsDir : FPath := pjoin HERE ".."

/-- Source line `root = osp.join(docs, os.pardir)`. -/
def rootDir : FPath := pjoin docsDir ".."

/-- Source line `EXAMPLES = ["accordionpanel", "datagrid", "dockpanel"]`. -/
def EXAMPLES : List String := ["accordionpanel", "datagrid", "dockpanel"]

/-- Source line `docs_api = osp.join(docs, "source", "api")`. -/
def docs_api : FPath := pjoins docsDir ["source", "api"]

/-- Source line `api_index = osp.join(docs_api, "algorithm", "index.html")`: the marker
file of `build_api_docs`. -/
def api_index : FPath := pjoins docs_api ["algorithm", "index.html"]

/-- Path `osp.join(HERE, 'api_index.html')`: the fixed index page overlaid onto
the copied API docs. -/
def api_index_src : FPath := pjoin HERE "api_index.html"

/-- Source line `examples_dir = osp.join(docs, "source", "examples")`. -/
def examples_dir : FPath := pjoins docsDir ["source", "examples"]

/-- Source line `example_index = osp.join(examples_dir, EXAMPLES[0], "index.html")`:
the marker file of `build_examples`. -/
def example_index : FPath := pjoins examples_dir [EXAMPLES.headD "", "index.html"]

/-- Source line `npm = [shutil.which('npm')]`. -/
def npmCmd (cfg : Config) : List (Option String) := [cfg.which "npm"]

/-- Source line `yarn = [shutil.which('yarn')]`. -/
def yarnCmd (cfg : Config) : List (Option String) := [cfg.which "yarn"]

/-- Argument vector `npm + ['install', '-g', 'yarn']`. -/
def installYarnCmd (cfg : Config) : List (Option String) :=
  npmCmd cfg ++ [some "install", some "-g", some "yarn"]

/-- The common tail of `build_api_docs` (lines 121-126 of `conf.py`), run in
both branches: print, remove a pre-existing `<out_dir>/api`, copy the
generated tree there, overlay the fixed index page. -/
def stage_api (fs : FS) (out_dir : FPath) : List Event × Except Err FS :=
  let dest_dir := pjoin out_dir "api"
  let e0 := Event.echo ("Copying " ++ pathStr docs_api ++ " -> " ++ pathStr dest_dir)
  let evs1 : List Event :=
    if fs.existsPath dest_dir then [Event.rmtreeEv dest_dir] else []
  let fs1 := if fs.existsPath dest_dir then fs.rmtree dest_dir else fs
  match fs1.copytree docs_api dest_dir with
  | .error e => (e0 :: evs1, .error e)
  | .ok fs2 =>
    match fs2.copy api_index_src (pjoin dest_dir "index.html") with
    | .error e => (e0 :: evs1 ++ [Event.copytreeEv docs_api dest_dir], .error e)
    | .ok fs3 =>
      (e0 :: evs1 ++ [Event.copytreeEv docs_api dest_dir,
        Event.copyEv api_index_src (pjoin dest_dir "index.html")], .ok fs3)

/-- Function `build_api_docs(out_dir)` of `conf.py`: skip the external build when the
marker `api_index` exists, otherwise run `npm install -g yarn`, `yarn` and
`yarn docs` in the repository root; then stage the generated tree into
`<out_dir>/api`. -/
def build_api_docs (cfg : Config) (fs : FS) (out_dir : FPath) :
    List Event × Except Err FS :=
  if fs.existsPath api_index then
    let st := stage_api fs out_dir
    (Event.echo ("already have " ++ pathStr api_index) :: st.1, st.2)
  else
    let e0 := Event.echo "Building lumino API docs"
    let c1 := installYarnCmd cfg
    match cfg.exec c1 rootDir with
    | some err => ([e0, Event.checkCall c1 rootDir], .error err)
    | none =>
      let c2 := yarnCmd cfg
      match cfg.exec c2 rootDir with
      | some err =>
        ([e0, Event.checkCall c1 rootDir, Event.checkCall c2 rootDir], .error err)
      | none =>
        let c3 := yarnCmd cfg ++ [some "docs"]
        match cfg.exec c3 rootDir with
        | some err =>
          ([e0, Event.checkCall c1 rootDir, Event.checkCall c2 rootDir,
            Event.checkCall c3 rootDir], .error err)
        | none =>
          let st := stage_api fs out_dir
          ([e0, Event.checkCall c1 rootDir, Event.checkCall c2 rootDir,
            Event.checkCall c3 rootDir] ++ st.1, st.2)

/-- Per-example source directory `osp.join(root, "examples", "example-" ++ ex)`. -/
def exampleSrc (ex : String) : FPath :=
  pjoins rootDir ["examples", "example-" ++ ex]

/-- Per-example destination `osp.join(docs, "source", "examples", ex)`. -/
def exampleDest (ex : String) : FPath :=
  pjoins docsDir ["source", "examples", ex]

/-- The `for example in EXAMPLES` loop of `build_examples` (lines 150-156):
copy each example's build output into the documentation source tree,
removing a pre-existing destination first; any error aborts the loop. -/
def copy_examples (fs : FS) : List String → List Event × Except Err FS
  | [] => ([], .ok fs)
  | ex :: rest =>
    let source := exampleSrc ex
    let dest_dir := exampleDest ex
    let e0 := Event.echo ("Copying " ++ pathStr source ++ " -> " ++ pathStr dest_dir)
    let evs1 : List Event :=
      if fs.existsPath dest_dir then [Event.rmtreeEv dest_dir] else []
    let fs1 := if fs.existsPath dest_dir then fs.rmtree dest_dir else fs
    match fs1.copytree source dest_dir with
    | .error e => (e0 :: evs1, .error e)
    | .ok fs2 =>
      let r := copy_examples fs2 rest
      (e0 :: evs1 ++ [Event.copytreeEv source dest_dir] ++ r.1, r.2)

/-- The final staging of `build_examples` (lines 158-162): copy the
aggregated `examples_dir` tree into `<out_dir>/examples`, removing a
pre-existing destination first. -/
def stage_examples (fs : FS) (out_dir : FPath) : List Event × Except Err FS :=
  let dest_dir := pjoin out_dir "examples"
  let e0 := Event.echo ("Copying " ++ pathStr examples_dir ++ " -> " ++ pathStr dest_dir)
  let evs1 : List Event :=
    if fs.existsPath dest_dir then [Event.rmtreeEv dest_dir] else []
  let fs1 := if fs.existsPath dest_dir then fs.rmtree dest_dir else fs
  match fs1.copytree examples_dir dest_dir with
  | .error e => (e0 :: evs1, .error e)
  | .ok fs2 => (e0 :: evs1 ++ [Event.copytreeEv examples_dir dest_dir], .ok fs2)

/-- Function `build_examples(out_dir)` of `conf.py`: when the marker `example_index`
exists, skip both the external build chain and the per-example copy loop;
otherwise run `npm install -g yarn`, `yarn`, `yarn build` and
`yarn build:examples` in the repository root and copy each example's output
into the documentation source tree; finally stage the aggregated examples
tree into `<out_dir>/examples`. -/
def build_examples (cfg : Config) (fs : FS) (out_dir : FPath) :
    List Event × Except Err FS :=
  if fs.existsPath example_index then
    let st := stage_examples fs out_dir
    (Event.echo "already have examples" :: st.1, st.2)
  else
    let e0 := Event.echo "Building lumino examples"
    let c1 := installYarnCmd cfg
    match cfg.exec c1 rootDir with
    | some err => ([e0, Event.checkCall c1 rootDir], .error err)
    | none =>
      let c2 := yarnCmd cfg
      match cfg.exec c2 rootDir with
      | some err =>
        ([e0, Event.checkCall c1 rootDir, Event.checkCall c2 rootDir], .error err)
      | none =>
        let c3 := yarnCmd cfg ++ [some "build"]
        match cfg.exec c3 rootDir with
        | some err =>
          ([e0, Event.checkCall c1 rootDir, Event.checkCall c2 rootDir,
            Event.checkCall c3 rootDir], .error err)
        | none =>
          let c4 := yarnCmd cfg ++ [some "build:examples"]
          match cfg.exec c4 rootDir with
          | some err =>
            ([e0, Event.checkCall c1 rootDir, Event.checkCall c2 rootDir,
              Event.checkCall c3 rootDir, Event.checkCall c4 rootDir], .error err)
          | none =>
            let lp := copy_examples fs EXAMPLES
            let pre := [e0, Event.checkCall c1 rootDir, Event.checkCall c2 rootDir,
              Event.checkCall c3 rootDir, Event.checkCall c4 rootDir]
            match lp.2 with
            | .error e => (pre ++ lp.1, .error e)
            | .ok fs2 =>
              let st := stage_examples fs2 out_dir
              (pre ++ lp.1 ++ st.1, st.2)

/-- Path `osp.join(HERE, '..', '..', 'CHANGELOG.md')`: the changelog source. -/
def changelog_src : FPath := pjoins HERE ["..", "..", "CHANGELOG.md"]

/-- Path `osp.join(HERE, 'changelog.md')`: the changelog destination in the docs
source tree. -/
def changelog_dest : FPath := pjoin HERE "changelog.md"

/-- Function `setup(app)` of `conf.py`: copy the changelog into the docs source
tree, register the custom stylesheet, then run `build_api_docs` and
`build_examples` on the app's output directory. -/
def setup (cfg : Config) (fs : FS) (outdir : FPath) :
    List Event × Except Err FS :=
  match fs.copy changelog_src changelog_dest with
  | .error e => ([], .error e)
  | .ok fs1 =>
    let t0 := [Event.copyEv changelog_src changelog_dest,
      Event.addCss "css/custom.css"]
    match build_api_docs cfg fs1 outdir with
    | (tA, .error e) => (t0 ++ tA, .error e)
    | (tA, .ok fs2) =>
      let r := build_examples cfg fs2 outdir
      (t0 ++ tA ++ r.1, r.2)

/-- A JSON value, for the package manifest. -/
inductive JValue where
  | str (s : String)
  | num (n : Int)
  | bool (b : Bool)
  | null
  | arr (xs : List JValue)
  | obj (fields : List (String × JValue))

/-- Field lookup in a JSON object's field list. -/
def jlookup (fields : List (String × JValue)) (k : String) : Option JValue :=
  (fields.find? (fun f => f.1 == k)).map (fun f => f.2)

/-- Python's `data[k]`: a `KeyError` when the key is missing, a `TypeError`
when `data` is not an object. -/
def getItem (j : JValue) (k : String) : Except Err JValue :=
  match j with
  | .obj fields =>
    match jlookup fields k with
    | some v => .ok v
    | none => .error (.keyError k)
  | _ => .error .typeErr

/-- Source line `package_json = Path(osp.join(HERE, '..', '..', 'package.json'))`. -/
def package_json : FPath := pjoins HERE ["..", "..", "package.json"]

/-- The module-level `version = release = data['version']` computation:
read `package.json`, parse it with the (black-box) JSON parser, take the
`version` field.  Any failure is an uncaught exception at import time. -/
def moduleLoadVersion (parse : String → Except Err JValue) (fs : FS) :
    Except Err JValue :=
  match fs.lookup package_json with
  | none => .error (.fileNotFound package_json)
  | some s =>
    match parse s with
    | .error e => .error e
    | .ok data => getItem data "version"

/-- The event is an external process invocation. -/
def isCall : Event → Bool
  | .checkCall _ _ => true
  | _ => false

/-- The event is a file or tree copy. -/
def isCopyOp : Event → Bool
  | .copytreeEv _ _ => true
  | .copyEv _ _ => true
  | _ => false

/-- The event is a copy of one named example's build output into the
documentation source tree. -/
def isExampleCopy : Event → Bool
  | .copytreeEv _ dest => EXAMPLES.any (fun ex => dest == exampleDest ex)
  | _ => false

/-- The run finished without an exception. -/
def resOk : Except Err FS → Bool
  | .ok _ => true
  | .error _ => false

/-- Final filesystem of a successful run. -/
def theFS : Except Err FS → FS
  | .ok f => f
  | .error _ => ⟨[]⟩

/-- The event is the copy of the aggregated examples tree into
`<out_dir>/examples`. -/
def isAggCopy (out_dir : FPath) : Event → Bool
  | .copytreeEv src dest => src == examples_dir && dest == pjoin out_dir "examples"
  | _ => false

/-- A `shutil.which` that resolves every tool. -/
def whichOk : String → Option String := fun t => some ("/usr/bin/" ++ t)

/-- Environment in which every external command succeeds. -/
def cfgOk : Config := ⟨whichOk, fun _ _ => none⟩

/-- A `CalledProcessError` raised by the first build command. -/
def errNpm : Err :=
  .processErr [some "/usr/bin/npm", some "install", some "-g", some "yarn"] rootDir

/-- Environment in which every external command fails with `errNpm`. -/
def cfgFail : Config := ⟨whichOk, fun _ _ => some errNpm⟩

/-- Checkout with the API-doc marker file present. -/
def fsApiMarker : FS := ⟨[(api_index, "generated algorithm index")]⟩

/-- Checkout with the API-doc marker absent but a generated page and the
fixed index page present. -/
def fsApiBuild : FS :=
  ⟨[(docs_api ++ ["widgets.html"], "generated widgets"),
    (api_index_src, "fixed index page")]⟩

/-- Checkout with the API-doc marker present and a stale file already in
the output directory. -/
def fsApiStale : FS :=
  ⟨[(api_index, "generated algorithm index"),
    (api_index_src, "fixed index page"),
    (["out", "api", "stale.html"], "stale content")]⟩

/-- Checkout whose generated API tree has its own top-level `index.html`. -/
def fsApiGen : FS :=
  ⟨[(api_index, "generated algorithm index"),
    (docs_api ++ ["index.html"], "generated index"),
    (api_index_src, "fixed index page")]⟩

/-- Checkout with the examples marker file present and nothing else. -/
def fsExMarker : FS := ⟨[(example_index, "built accordion index")]⟩

/-- Checkout with the examples marker present while the `datagrid` and
`dockpanel` build outputs are absent. -/
def fsExMarker2 : FS :=
  ⟨[(example_index, "built accordion index"), (api_index, "generated algorithm index")]⟩

/-- Another checkout with the examples marker present and no `datagrid` or
`dockpanel` output anywhere. -/
def fsExMarkerOnly : FS :=
  ⟨[(example_index, "built accordion index"), (changelog_src, "changelog body")]⟩

/-- Checkout with the examples marker absent and all three example build
outputs available in the repository's `examples` directories. -/
def fsExBuild : FS :=
  ⟨[(exampleSrc "accordionpanel" ++ ["index.html"], "accordion app"),
    (exampleSrc "datagrid" ++ ["index.html"], "datagrid app"),
    (exampleSrc "dockpanel" ++ ["index.html"], "dockpanel app")]⟩

/-- Checkout on which a full `setup` run succeeds with both markers
present. -/
def fsSetupGood : FS :=
  ⟨[(changelog_src, "changelog body"),
    (api_index, "generated algorithm index"),
    (api_index_src, "fixed index page"),
    (example_index, "built accordion index")]⟩

/-- Checkout with the changelog present and both markers absent. -/
def fsC7 : FS := ⟨[(changelog_src, "changelog body")]⟩

/-- Checkout with the API marker present but no fixed index page file. -/
def fsC7b : FS := ⟨[(api_index, "generated algorithm index")]⟩

/-- A JSON parser recognising one concrete manifest text. -/
def parseFixed : String → Except Err JValue := fun s =>
  if s == "manifest-content" then
    .ok (.obj [("name", .str "lumino"), ("version", .str "2025.3.0")])
  else .error .parseError

/-- Checkout whose `package.json` holds the recognised manifest text. -/
def fsPkg : FS := ⟨[(package_json, "manifest-content")]⟩

theorem hasFile_eq_true_iff (fs : FS) (p : FPath) :
    fs.hasFile p = true ↔ ∃ c, (p, c) ∈ fs.files := by
  simp only [FS.hasFile, List.any_eq_true, beq_iff_eq]
  constructor
  · rintro ⟨⟨q, c⟩, hm, rfl⟩
    exact ⟨c, hm⟩
  · rintro ⟨c, hm⟩
    exact ⟨(p, c), hm, rfl⟩

theorem hasFile_eq_false_iff (fs : FS) (p : FPath) :
    fs.hasFile p = false ↔ ∀ e ∈ fs.files, e.1 ≠ p := by
  simp [FS.hasFile, List.any_eq_false]

theorem existsPath_eq_false_iff (fs : FS) (p : FPath) :
    fs.existsPath p = false ↔ ∀ e ∈ fs.files, p.isPrefixOf e.1 = false := by
  rw [FS.existsPath, List.any_eq_false]
  constructor
  · intro h e he
    exact Bool.eq_false_iff.mpr (h e he)
  · intro h e he hc
    rw [h e he] at hc
    cases hc

theorem isPrefixOf_append_right (d rest : FPath) :
    d.isPrefixOf (d ++ rest) = true := by
  rw [List.isPrefixOf_iff_prefix]
  exact List.prefix_append d rest

theorem append_drop_of_isPrefixOf {d q : FPath} (h : d.isPrefixOf q = true) :
    d ++ q.drop d.length = q := by
  rw [List.isPrefixOf_iff_prefix] at h
  obtain ⟨t, rfl⟩ := h
  rw [List.drop_left]

theorem mem_mapTree {src dest : FPath} {files : List (FPath × String)}
    {q : FPath × String} (h : q ∈ mapTree src dest files) :
    ∃ rest, q.1 = dest ++ rest ∧ (src ++ rest, q.2) ∈ files := by
  rw [mapTree, List.mem_filterMap] at h
  obtain ⟨f, hf, he⟩ := h
  by_cases hp : src.isPrefixOf f.1 = true
  · rw [if_pos hp] at he
    cases he
    refine ⟨f.1.drop src.length, rfl, ?_⟩
    rw [append_drop_of_isPrefixOf hp]
    exact hf
  · rw [if_neg hp] at he
    cases he

theorem copytree_ok {fs fs' : FS} {src dest : FPath}
    (h : fs.copytree src dest = .ok fs') :
    fs'.files = fs.files ++ mapTree src dest fs.files ∧
      fs.existsPath src = true ∧ fs.existsPath dest = false := by
  rw [FS.copytree] at h
  cases hs : fs.existsPath src <;> rw [hs] at h
  · simp at h
  · cases hd : fs.existsPath dest <;> rw [hd] at h
    · simp only [Bool.not_true, Bool.false_eq_true, if_false, if_true] at h
      cases h
      exact ⟨rfl, rfl, rfl⟩
    · simp only [Bool.not_true, Bool.false_eq_true, if_false, if_true] at h
      cases h

theorem copy_ok {fs fs' : FS} {src dest : FPath}
    (h : fs.copy src dest = .ok fs') :
    ∃ c, fs.lookup src = some c ∧
      fs'.files = (dest, c) :: fs.files.filter (fun f => !(f.1 == dest)) := by
  rw [FS.copy] at h
  cases hl : fs.lookup src <;> rw [hl] at h
  · cases h
  · cases h
    exact ⟨_, rfl, rfl⟩

theorem find?_filter_of_keep {files : List (FPath × String)}
    {q : FPath × String → Bool} {p : FPath}
    (hq : ∀ e : FPath × String, e.1 = p → q e = true) :
    (files.filter q).find? (fun f => f.1 == p) =
      files.find? (fun f => f.1 == p) := by
  induction files with
  | nil => rfl
  | cons f fsl ih =>
    by_cases hf : f.1 = p
    · have hqf : q f = true := hq f hf
      have hbeq : (f.1 == p) = true := beq_iff_eq.mpr hf
      simp only [List.filter_cons_of_pos hqf, List.find?_cons, hbeq]
    · have hbeq : (f.1 == p) = false := beq_eq_false_iff_ne.mpr hf
      cases hqf : q f
      · have hnq : ¬ q f = true := by simp [hqf]
        rw [List.filter_cons_of_neg hnq]
        simp only [List.find?_cons, hbeq, ih]
      · simp only [List.filter_cons_of_pos hqf, List.find?_cons, hbeq, ih]

theorem lookup_eq_none_iff (fs : FS) (p : FPath) :
    fs.lookup p = none ↔ ∀ e ∈ fs.files, e.1 ≠ p := by
  simp [FS.lookup, List.find?_eq_none]

theorem getLast_ne_imp {l m : List String} {a : String}
    (h : m.getLast? ≠ some a) : l ++ [a] ≠ m :=
  fun he => h (he ▸ List.getLast?_concat l)

theorem isExampleCopy_agg_false (out_dir : FPath) :
    isExampleCopy (Event.copytreeEv examples_dir (pjoin out_dir "examples")) = false := by
  have hp : pjoin out_dir "examples" = out_dir ++ ["examples"] := rfl
  have h1 : (out_dir ++ ["examples"] == exampleDest "accordionpanel") = false :=
    beq_eq_false_iff_ne.mpr (getLast_ne_imp (by decide))
  have h2 : (out_dir ++ ["examples"] == exampleDest "datagrid") = false :=
    beq_eq_false_iff_ne.mpr (getLast_ne_imp (by decide))
  have h3 : (out_dir ++ ["examples"] == exampleDest "dockpanel") = false :=
    beq_eq_false_iff_ne.mpr (getLast_ne_imp (by decide))
  simp [isExampleCopy, EXAMPLES, hp, h1, h2, h3]

theorem isExampleCopy_example :
    ∀ ex ∈ EXAMPLES,
      isExampleCopy (Event.copytreeEv (exampleSrc ex) (exampleDest ex)) = true := by
  decide

theorem api_dest_not_prefix_src (out_dir : FPath) :
    (pjoin out_dir "api").isPrefixOf api_index_src = false := by
  have hp : pjoin out_dir "api" = out_dir ++ ["api"] := rfl
  rw [hp]
  apply Bool.eq_false_iff.mpr
  intro hc
  rw [List.isPrefixOf_iff_prefix] at hc
  obtain ⟨t, ht⟩ := hc
  have hm : "api" ∈ api_index_src := by
    rw [← ht]
    simp
  revert hm
  decide

theorem stage_api_no_call (fs : FS) (out_dir : FPath) :
    (stage_api fs out_dir).1.filter isCall = [] := by
  rw [stage_api]
  cases hd : fs.existsPath (pjoin out_dir "api") <;>
    simp only [hd, Bool.false_eq_true, Bool.true_eq_false, if_true, if_false,
      ite_true, ite_false] <;>
    split <;> (try split) <;> simp [isCall]

theorem stage_api_ok (fs : FS) (out_dir : FPath)
    (hok : resOk (stage_api fs out_dir).2 = true) :
    ∃ fs2 fs3,
      (if fs.existsPath (pjoin out_dir "api") then fs.rmtree (pjoin out_dir "api")
        else fs).copytree docs_api (pjoin out_dir "api") = .ok fs2 ∧
      fs2.copy api_index_src (pjoin (pjoin out_dir "api") "index.html") = .ok fs3 ∧
      stage_api fs out_dir =
        (Event.echo ("Copying " ++ pathStr docs_api ++ " -> " ++
            pathStr (pjoin out_dir "api")) ::
          (if fs.existsPath (pjoin out_dir "api") then
            [Event.rmtreeEv (pjoin out_dir "api")] else []) ++
          [Event.copytreeEv docs_api (pjoin out_dir "api"),
           Event.copyEv api_index_src (pjoin (pjoin out_dir "api") "index.html")],
         .ok fs3) := by
  simp only [stage_api] at hok ⊢
  cases hc : (if fs.existsPath (pjoin out_dir "api") then fs.rmtree (pjoin out_dir "api")
      else fs).copytree docs_api (pjoin out_dir "api") with
  | error e =>
    rw [hc] at hok
    simp [resOk] at hok
  | ok fs2 =>
    cases hcp : fs2.copy api_index_src (pjoin (pjoin out_dir "api") "index.html") with
    | error e =>
      rw [hc] at hok
      simp [resOk, hcp] at hok
    | ok fs3 =>
      refine ⟨fs2, fs3, rfl, hcp, ?_⟩
      simp [hcp]

theorem stage_examples_filter_none (p : Event → Bool) (fs : FS) (out_dir : FPath)
    (hecho : ∀ m, p (Event.echo m) = false)
    (hrm : ∀ q, p (Event.rmtreeEv q) = false)
    (hagg : p (Event.copytreeEv examples_dir (pjoin out_dir "examples")) = false) :
    (stage_examples fs out_dir).1.filter p = [] := by
  rw [stage_examples]
  cases hd : fs.existsPath (pjoin out_dir "examples") <;>
    simp only [hd, Bool.false_eq_true, Bool.true_eq_false, if_true, if_false,
      ite_true, ite_false] <;>
    split <;> simp [hecho, hrm, hagg]

theorem stage_examples_ok (fs : FS) (out_dir : FPath)
    (hok : resOk (stage_examples fs out_dir).2 = true) :
    ∃ fs2,
      (if fs.existsPath (pjoin out_dir "examples") then
        fs.rmtree (pjoin out_dir "examples")
        else fs).copytree examples_dir (pjoin out_dir "examples") = .ok fs2 ∧
      stage_examples fs out_dir =
        (Event.echo ("Copying " ++ pathStr examples_dir ++ " -> " ++
            pathStr (pjoin out_dir "examples")) ::
          (if fs.existsPath (pjoin out_dir "examples") then
            [Event.rmtreeEv (pjoin out_dir "examples")] else []) ++
          [Event.copytreeEv examples_dir (pjoin out_dir "examples")],
         .ok fs2) := by
  simp only [stage_examples] at hok ⊢
  cases hc : (if fs.existsPath (pjoin out_dir "examples") then
      fs.rmtree (pjoin out_dir "examples")
      else fs).copytree examples_dir (pjoin out_dir "examples") with
  | error e =>
    rw [hc] at hok
    simp [resOk] at hok
  | ok fs2 =>
    exact ⟨fs2, rfl, rfl⟩

theorem copy_examples_filter (p : Event → Bool)
    (hecho : ∀ m, p (Event.echo m) = false)
    (hrm : ∀ q, p (Event.rmtreeEv q) = false) :
    ∀ (l : List String) (fs : FS),
      (∀ ex ∈ l, p (Event.copytreeEv (exampleSrc ex) (exampleDest ex)) = true) →
      resOk (copy_examples fs l).2 = true →
      (copy_examples fs l).1.filter p =
        l.map (fun ex => Event.copytreeEv (exampleSrc ex) (exampleDest ex)) := by
  intro l
  induction l with
  | nil =>
    intro fs _ _
    rfl
  | cons ex rest ih =>
    intro fs hl hok
    have hx : p (Event.copytreeEv (exampleSrc ex) (exampleDest ex)) = true :=
      hl ex (List.mem_cons_self ex rest)
    have hrest : ∀ x ∈ rest, p (Event.copytreeEv (exampleSrc x) (exampleDest x)) = true :=
      fun x hxm => hl x (List.mem_cons_of_mem _ hxm)
    simp only [copy_examples] at hok ⊢
    cases hc : (if fs.existsPath (exampleDest ex) then fs.rmtree (exampleDest ex)
        else fs).copytree (exampleSrc ex) (exampleDest ex) with
    | error e =>
      rw [hc] at hok
      simp [resOk] at hok
    | ok fs2 =>
      rw [hc] at hok
      simp [List.filter_cons, List.filter_append, hecho, hrm, hx,
        ih fs2 hrest hok]

theorem build_api_result (cfg : Config) (fs : FS) (out_dir : FPath) :
    (build_api_docs cfg fs out_dir).2 = (stage_api fs out_dir).2 ∨
      ∃ e, (build_api_docs cfg fs out_dir).2 = .error e := by
  simp only [build_api_docs]
  cases hm : fs.existsPath api_index
  · cases h1 : cfg.exec (installYarnCmd cfg) rootDir
    · cases h2 : cfg.exec (yarnCmd cfg) rootDir
      · cases h3 : cfg.exec (yarnCmd cfg ++ [some "docs"]) rootDir
        · left
          rfl
        · right
          exact ⟨_, rfl⟩
      · right
        exact ⟨_, rfl⟩
    · right
      exact ⟨_, rfl⟩
  · left
    rfl

theorem existsPath_mono {fs : FS} {p q : FPath} (hpq : p.isPrefixOf q = true)
    (h : fs.existsPath q = true) : fs.existsPath p = true := by
  rw [FS.existsPath, List.any_eq_true] at h ⊢
  obtain ⟨f, hf, hqf⟩ := h
  refine ⟨f, hf, ?_⟩
  rw [List.isPrefixOf_iff_prefix] at hpq hqf ⊢
  exact hpq.trans hqf

theorem find?_eq_none_of_lookup {fs : FS} {p : FPath} (h : fs.lookup p = none) :
    fs.files.find? (fun f => f.1 == p) = none := by
  rw [FS.lookup] at h
  exact Option.map_eq_none'.mp h

theorem find?_rmtree_eq (fs : FS) (d key : FPath) (h : d.isPrefixOf key = false) :
    (fs.rmtree d).files.find? (fun f => f.1 == key) =
      fs.files.find? (fun f => f.1 == key) := by
  rw [FS.rmtree]
  apply find?_filter_of_keep
  intro e he
  rw [he, h]
  rfl

theorem find?_mapTree_none (src d key : FPath) (files : List (FPath × String))
    (h : d.isPrefixOf key = false) :
    (mapTree src d files).find? (fun f => f.1 == key) = none := by
  rw [List.find?_eq_none]
  intro q hq hqq
  obtain ⟨r2, hq1, _⟩ := mem_mapTree hq
  rw [beq_iff_eq] at hqq
  rw [hq1] at hqq
  rw [← hqq] at h
  rw [isPrefixOf_append_right] at h
  cases h

theorem stage_api_stale (fs : FS) (out_dir : FPath) (rest : FPath)
    (hrest : rest ≠ ["index.html"])
    (hsrc : fs.hasFile (docs_api ++ rest) = false)
    (hok : resOk (stage_api fs out_dir).2 = true) :
    (theFS (stage_api fs out_dir).2).hasFile (pjoin out_dir "api" ++ rest) = false := by
  obtain ⟨fs2, fs3, hct, hcp, heq⟩ := stage_api_ok fs out_dir hok
  obtain ⟨c, hcl, hf3⟩ := copy_ok hcp
  obtain ⟨hf2, hsrcEx, hdne⟩ := copytree_ok hct
  rw [heq]
  show fs3.hasFile (pjoin out_dir "api" ++ rest) = false
  rw [hasFile_eq_false_iff]
  intro e he hep
  rw [hf3] at he
  rcases List.mem_cons.mp he with he | he
  · apply hrest
    rw [he] at hep
    exact (List.append_cancel_left
      (show pjoin out_dir "api" ++ ["index.html"] = pjoin out_dir "api" ++ rest from hep)).symm
  · have he2 : e ∈ fs2.files := (List.mem_filter.mp he).1
    rw [hf2] at he2
    rcases List.mem_append.mp he2 with he3 | he3
    · have hpre : (pjoin out_dir "api").isPrefixOf e.1 = false :=
        (existsPath_eq_false_iff _ _).mp hdne e he3
      rw [hep, isPrefixOf_append_right] at hpre
      cases hpre
    · obtain ⟨rest2, hq1, hmem⟩ := mem_mapTree he3
      have hr : rest2 = rest := List.append_cancel_left (hq1.symm.trans hep)
      rw [hr] at hmem
      have hmem2 : (docs_api ++ rest, e.2) ∈ fs.files := by
        by_cases hd : fs.existsPath (pjoin out_dir "api") = true
        · rw [if_pos hd] at hmem
          exact (List.mem_filter.mp hmem).1
        · rw [if_neg hd] at hmem
          exact hmem
      have hhas : fs.hasFile (docs_api ++ rest) = true :=
        (hasFile_eq_true_iff _ _).mpr ⟨e.2, hmem2⟩
      rw [hhas] at hsrc
      cases hsrc

theorem stage_api_overlay (fs : FS) (out_dir : FPath)
    (hok : resOk (stage_api fs out_dir).2 = true) :
    (theFS (stage_api fs out_dir).2).lookup (pjoin (pjoin out_dir "api") "index.html") =
      fs.lookup api_index_src := by
  obtain ⟨fs2, fs3, hct, hcp, heq⟩ := stage_api_ok fs out_dir hok
  obtain ⟨c, hcl, hf3⟩ := copy_ok hcp
  obtain ⟨hf2, hsrcEx, hdne⟩ := copytree_ok hct
  rw [heq]
  show fs3.lookup (pjoin (pjoin out_dir "api") "index.html") = fs.lookup api_index_src
  have h1 : fs3.lookup (pjoin (pjoin out_dir "api") "index.html") = some c := by
    rw [FS.lookup, hf3]
    simp
  rw [h1, ← hcl, FS.lookup, FS.lookup, hf2, List.find?_append,
    find?_mapTree_none _ _ _ _ (api_dest_not_prefix_src out_dir)]
  by_cases hd : fs.existsPath (pjoin out_dir "api") = true
  · rw [if_pos hd, find?_rmtree_eq _ _ _ (api_dest_not_prefix_src out_dir),
      Option.or_none]
  · rw [if_neg hd, Option.or_none]

theorem stage_examples_filter_agg (p : Event → Bool) (fs : FS) (out_dir : FPath)
    (hecho : ∀ m, p (Event.echo m) = false)
    (hrm : ∀ q, p (Event.rmtreeEv q) = false)
    (hagg : p (Event.copytreeEv examples_dir (pjoin out_dir "examples")) = true)
    (hok : resOk (stage_examples fs out_dir).2 = true) :
    (stage_examples fs out_dir).1.filter p =
      [Event.copytreeEv examples_dir (pjoin out_dir "examples")] := by
  obtain ⟨fs2, hct, heq⟩ := stage_examples_ok fs out_dir hok
  rw [heq]
  cases hd : fs.existsPath (pjoin out_dir "examples") <;>
    simp [hecho, hrm, hagg, hd]

/-- C1: for every output directory, if the API-doc marker file
`source/api/algorithm/index.html` exists when `build_api_docs` is called,
the call performs zero external process invocations. -/
theorem build_api_docs_marker_skips_subprocesses
    (cfg : Config) (fs : FS) (out_dir : FPath)
    (hmarker : fs.existsPath api_index = true) :
    (build_api_docs cfg fs out_dir).1.filter isCall = [] := by
  simp only [build_api_docs, hmarker]
  show (Event.echo ("already have " ++ pathStr api_index) ::
    (stage_api fs out_dir).1).filter isCall = []
  rw [List.filter_cons_of_neg (by simp [isCall])]
  exact stage_api_no_call fs out_dir

/-- Witness for C1: a concrete checkout with the marker present yields a
trace free of process invocations. -/
theorem build_api_docs_marker_skips_subprocesses_witness :
    fsApiMarker.existsPath api_index = true ∧
      (build_api_docs cfgOk fsApiMarker ["out"]).1.filter isCall = [] :=
  ⟨by decide,
   build_api_docs_marker_skips_subprocesses cfgOk fsApiMarker ["out"] (by decide)⟩

/-- C2: for every output directory, if the marker is absent, a successful
`build_api_docs` run invokes exactly `npm install -g yarn`, `yarn` and
`yarn docs` (in this order, in the repository root) and all of them happen
before any copy is performed. -/
theorem build_api_docs_builds_before_copy (cfg : Config) (fs : FS) (out_dir : FPath)
    (hmarker : fs.existsPath api_index = false)
    (hok : resOk (build_api_docs cfg fs out_dir).2 = true) :
    (build_api_docs cfg fs out_dir).1.filter (fun e => isCall e || isCopyOp e) =
      [Event.checkCall (installYarnCmd cfg) rootDir,
       Event.checkCall (yarnCmd cfg) rootDir,
       Event.checkCall (yarnCmd cfg ++ [some "docs"]) rootDir,
       Event.copytreeEv docs_api (pjoin out_dir "api"),
       Event.copyEv api_index_src (pjoin (pjoin out_dir "api") "index.html")] := by
  simp only [build_api_docs, hmarker] at hok ⊢
  cases h1 : cfg.exec (installYarnCmd cfg) rootDir with
  | some err =>
    rw [h1] at hok
    simp [resOk] at hok
  | none =>
    rw [h1] at hok
    cases h2 : cfg.exec (yarnCmd cfg) rootDir with
    | some err =>
      rw [h2] at hok
      simp [resOk] at hok
    | none =>
      rw [h2] at hok
      cases h3 : cfg.exec (yarnCmd cfg ++ [some "docs"]) rootDir with
      | some err =>
        rw [h3] at hok
        simp [resOk] at hok
      | none =>
        rw [h3] at hok
        have hst : resOk (stage_api fs out_dir).2 = true := hok
        obtain ⟨fs2, fs3, hct, hcp, heq⟩ := stage_api_ok fs out_dir hst
        show ([Event.echo "Building lumino API docs",
          Event.checkCall (installYarnCmd cfg) rootDir,
          Event.checkCall (yarnCmd cfg) rootDir,
          Event.checkCall (yarnCmd cfg ++ [some "docs"]) rootDir] ++
            (stage_api fs out_dir).1).filter (fun e => isCall e || isCopyOp e) = _
        rw [List.filter_append, heq]
        cases hd : fs.existsPath (pjoin out_dir "api") <;>
          simp [isCall, isCopyOp, hd]

/-- Witness for C2: a concrete marker-absent checkout on which the run
succeeds, with the five filtered events listed explicitly. -/
theorem build_api_docs_builds_before_copy_witness :
    fsApiBuild.existsPath api_index = false ∧
      resOk (build_api_docs cfgOk fsApiBuild ["out"]).2 = true ∧
      (build_api_docs cfgOk fsApiBuild ["out"]).1.filter
          (fun e => isCall e || isCopyOp e) =
        [Event.checkCall (installYarnCmd cfgOk) rootDir,
         Event.checkCall (yarnCmd cfgOk) rootDir,
         Event.checkCall (yarnCmd cfgOk ++ [some "docs"]) rootDir,
         Event.copytreeEv docs_api (pjoin ["out"] "api"),
         Event.copyEv api_index_src (pjoin (pjoin ["out"] "api") "index.html")] :=
  ⟨by decide, by decide,
   build_api_docs_builds_before_copy cfgOk fsApiBuild ["out"] (by decide) (by decide)⟩

/-- C5: on every successful `build_api_docs` run, a file that was present
under the pre-existing `<out_dir>/api` destination and is absent from the
generated source tree does not survive: the destination tree is removed
before the copy. -/
theorem build_api_docs_no_stale_survivor (cfg : Config) (fs : FS)
    (out_dir rest : FPath)
    (hrest : rest ≠ ["index.html"])
    (hok : resOk (build_api_docs cfg fs out_dir).2 = true)
    (hold : fs.hasFile (pjoin out_dir "api" ++ rest) = true)
    (hsrc : fs.hasFile (docs_api ++ rest) = false) :
    (theFS (build_api_docs cfg fs out_dir).2).hasFile
      (pjoin out_dir "api" ++ rest) = false := by
  rcases build_api_result cfg fs out_dir with hres | ⟨e, hres⟩
  · rw [hres] at hok ⊢
    exact stage_api_stale fs out_dir rest hrest hsrc hok
  · rw [hres] at hok
    simp [resOk] at hok

/-- Witness for C5: a stale file under `out/api` vanishes in a concrete
successful run. -/
theorem build_api_docs_no_stale_survivor_witness :
    (["stale.html"] : FPath) ≠ ["index.html"] ∧
      resOk (build_api_docs cfgOk fsApiStale ["out"]).2 = true ∧
      fsApiStale.hasFile (pjoin ["out"] "api" ++ ["stale.html"]) = true ∧
      fsApiStale.hasFile (docs_api ++ ["stale.html"]) = false ∧
      (theFS (build_api_docs cfgOk fsApiStale ["out"]).2).hasFile
        (pjoin ["out"] "api" ++ ["stale.html"]) = false :=
  ⟨by decide, by decide, by decide, by decide,
   build_api_docs_no_stale_survivor cfgOk fsApiStale ["out"] ["stale.html"]
     (by decide) (by decide) (by decide) (by decide)⟩

/-- C9: on every successful `build_api_docs` run, the final
`<out_dir>/api/index.html` holds the content of the fixed page
`api_index.html`, whatever `index.html` the generated tree contained. -/
theorem build_api_docs_overlay_index (cfg : Config) (fs : FS) (out_dir : FPath)
    (hok : resOk (build_api_docs cfg fs out_dir).2 = true) :
    (theFS (build_api_docs cfg fs out_dir).2).lookup
        (pjoin (pjoin out_dir "api") "index.html") = fs.lookup api_index_src := by
  rcases build_api_result cfg fs out_dir with hres | ⟨e, hres⟩
  · rw [hres] at hok ⊢
    exact stage_api_overlay fs out_dir hok
  · rw [hres] at hok
    simp [resOk] at hok

/-- Witness for C9: a checkout whose generated tree carries its own
`index.html` still ends with the fixed page in the destination. -/
theorem build_api_docs_overlay_index_witness :
    resOk (build_api_docs cfgOk fsApiGen ["out"]).2 = true ∧
      (theFS (build_api_docs cfgOk fsApiGen ["out"]).2).lookup
          (pjoin (pjoin ["out"] "api") "index.html") =
        fsApiGen.lookup api_index_src :=
  ⟨by decide, build_api_docs_overlay_index cfgOk fsApiGen ["out"] (by decide)⟩

/-- C10: whenever the single marker file
`source/examples/accordionpanel/index.html` exists, `build_examples` runs
no external command and performs no per-example copy into the
documentation source tree, regardless of the other examples' outputs. -/
theorem build_examples_marker_skips_all (cfg : Config) (fs : FS) (out_dir : FPath)
    (hmarker : fs.existsPath example_index = true) :
    (build_examples cfg fs out_dir).1.filter
      (fun e => isCall e || isExampleCopy e) = [] := by
  simp only [build_examples, hmarker]
  show (Event.echo "already have examples" :: (stage_examples fs out_dir).1).filter
    (fun e => isCall e || isExampleCopy e) = []
  rw [List.filter_cons_of_neg (by simp [isCall, isExampleCopy])]
  exact stage_examples_filter_none _ fs out_dir
    (fun m => by simp [isCall, isExampleCopy])
    (fun q => by simp [isCall, isExampleCopy])
    (by simp [isCall, isExampleCopy_agg_false out_dir])

/-- Witness for C10: with the accordionpanel marker present and the other
two example outputs absent everywhere, nothing is built or copied into the
source tree. -/
theorem build_examples_marker_skips_all_witness :
    fsExMarkerOnly.existsPath example_index = true ∧
      (build_examples cfgOk fsExMarkerOnly ["out"]).1.filter
        (fun e => isCall e || isExampleCopy e) = [] :=
  ⟨by decide,
   build_examples_marker_skips_all cfgOk fsExMarkerOnly ["out"] (by decide)⟩

/-- Counterexample to C3 as stated: a successful `build_examples` invocation
(marker present) in which the set of per-example copies is empty, not the
three named outputs. -/
theorem build_examples_exact_three_counterexample :
    resOk (build_examples cfgOk fsExMarker ["out"]).2 = true ∧
      (build_examples cfgOk fsExMarker ["out"]).1.filter isExampleCopy ≠
        EXAMPLES.map (fun ex => Event.copytreeEv (exampleSrc ex) (exampleDest ex)) := by
  decide

/-- C3 (amended): on every successful `build_examples` run, the per-example
copies into the documentation source tree are exactly the three named
outputs `accordionpanel`, `datagrid`, `dockpanel` (in this order) when the
marker is absent, and none at all when the marker is present. -/
theorem build_examples_exact_three (cfg : Config) (fs : FS) (out_dir : FPath)
    (hok : resOk (build_examples cfg fs out_dir).2 = true) :
    (build_examples cfg fs out_dir).1.filter isExampleCopy =
      (if fs.existsPath example_index then []
       else EXAMPLES.map (fun ex => Event.copytreeEv (exampleSrc ex) (exampleDest ex))) := by
  simp only [build_examples] at hok ⊢
  cases hm : fs.existsPath example_index
  · rw [hm] at hok
    cases h1 : cfg.exec (installYarnCmd cfg) rootDir with
    | some err =>
      rw [h1] at hok
      simp [resOk] at hok
    | none =>
      rw [h1] at hok
      cases h2 : cfg.exec (yarnCmd cfg) rootDir with
      | some err =>
        rw [h2] at hok
        simp [resOk] at hok
      | none =>
        rw [h2] at hok
        cases h3 : cfg.exec (yarnCmd cfg ++ [some "build"]) rootDir with
        | some err =>
          rw [h3] at hok
          simp [resOk] at hok
        | none =>
          rw [h3] at hok
          cases h4 : cfg.exec (yarnCmd cfg ++ [some "build:examples"]) rootDir with
          | some err =>
            rw [h4] at hok
            simp [resOk] at hok
          | none =>
            rw [h4] at hok
            cases hl : (copy_examples fs EXAMPLES).2 with
            | error e =>
              rw [hl] at hok
              simp [resOk] at hok
            | ok fs2 =>
              rw [hl] at hok
              have hst : resOk (stage_examples fs2 out_dir).2 = true := hok
              have hloop : resOk (copy_examples fs EXAMPLES).2 = true := by
                rw [hl]
                rfl
              have hLoopTr := copy_examples_filter isExampleCopy
                (fun m => rfl) (fun q => rfl) EXAMPLES fs isExampleCopy_example hloop
              have hStTr := stage_examples_filter_none isExampleCopy fs2 out_dir
                (fun m => rfl) (fun q => rfl) (isExampleCopy_agg_false out_dir)
              show ([Event.echo "Building lumino examples",
                Event.checkCall (installYarnCmd cfg) rootDir,
                Event.checkCall (yarnCmd cfg) rootDir,
                Event.checkCall (yarnCmd cfg ++ [some "build"]) rootDir,
                Event.checkCall (yarnCmd cfg ++ [some "build:examples"]) rootDir] ++
                  (copy_examples fs EXAMPLES).1 ++ (stage_examples fs2 out_dir).1).filter
                    isExampleCopy =
                EXAMPLES.map (fun ex => Event.copytreeEv (exampleSrc ex) (exampleDest ex))
              rw [List.filter_append, List.filter_append, hLoopTr, hStTr]
              simp [isExampleCopy]
  · show (Event.echo "already have examples" ::
      (stage_examples fs out_dir).1).filter isExampleCopy = ([] : List Event)
    rw [List.filter_cons_of_neg (by simp [isExampleCopy])]
    exact stage_examples_filter_none isExampleCopy fs out_dir
      (fun m => rfl) (fun q => rfl) (isExampleCopy_agg_false out_dir)

/-- Witness for the amended C3: a concrete marker-absent run copies exactly
the three named outputs. -/
theorem build_examples_exact_three_witness :
    resOk (build_examples cfgOk fsExBuild ["out"]).2 = true ∧
      (build_examples cfgOk fsExBuild ["out"]).1.filter isExampleCopy =
        (if fsExBuild.existsPath example_index then []
         else EXAMPLES.map (fun ex => Event.copytreeEv (exampleSrc ex) (exampleDest ex))) :=
  ⟨by decide, build_examples_exact_three cfgOk fsExBuild ["out"] (by decide)⟩

/-- Counterexample to C4 as stated: a successful invocation (marker
present) in which the `datagrid` build output is never copied into the
documentation source tree, although the claim asserts the per-example
copies happen regardless of the marker check. -/
theorem build_examples_unconditional_copy_counterexample :
    resOk (build_examples cfgOk fsExMarker2 ["out2"]).2 = true ∧
      Event.copytreeEv (exampleSrc "datagrid") (exampleDest "datagrid") ∉
        (build_examples cfgOk fsExMarker2 ["out2"]).1 := by
  decide

/-- C4 (amended): on every successful `build_examples` run, the aggregated
examples tree is copied into `<out_dir>/examples` as the last copy; the
per-example copies into the documentation source tree happen before it and
only when the marker is absent. -/
theorem build_examples_staging_order (cfg : Config) (fs : FS) (out_dir : FPath)
    (hok : resOk (build_examples cfg fs out_dir).2 = true) :
    (build_examples cfg fs out_dir).1.filter
        (fun e => isExampleCopy e || isAggCopy out_dir e) =
      (if fs.existsPath example_index then
        [Event.copytreeEv examples_dir (pjoin out_dir "examples")]
       else EXAMPLES.map (fun ex => Event.copytreeEv (exampleSrc ex) (exampleDest ex)) ++
         [Event.copytreeEv examples_dir (pjoin out_dir "examples")]) := by
  have hagg : (fun e => isExampleCopy e || isAggCopy out_dir e)
      (Event.copytreeEv examples_dir (pjoin out_dir "examples")) = true := by
    simp [isAggCopy, isExampleCopy_agg_false out_dir]
  have hcp : ∀ ex ∈ EXAMPLES, (fun e => isExampleCopy e || isAggCopy out_dir e)
      (Event.copytreeEv (exampleSrc ex) (exampleDest ex)) = true := by
    intro ex hex
    simp [isExampleCopy_example ex hex]
  simp only [build_examples] at hok ⊢
  cases hm : fs.existsPath example_index
  · rw [hm] at hok
    cases h1 : cfg.exec (installYarnCmd cfg) rootDir with
    | some err =>
      rw [h1] at hok
      simp [resOk] at hok
    | none =>
      rw [h1] at hok
      cases h2 : cfg.exec (yarnCmd cfg) rootDir with
      | some err =>
        rw [h2] at hok
        simp [resOk] at hok
      | none =>
        rw [h2] at hok
        cases h3 : cfg.exec (yarnCmd cfg ++ [some "build"]) rootDir with
        | some err =>
          rw [h3] at hok
          simp [resOk] at hok
        | none =>
          rw [h3] at hok
          cases h4 : cfg.exec (yarnCmd cfg ++ [some "build:examples"]) rootDir with
          | some err =>
            rw [h4] at hok
            simp [resOk] at hok
          | none =>
            rw [h4] at hok
            cases hl : (copy_examples fs EXAMPLES).2 with
            | error e =>
              rw [hl] at hok
              simp [resOk] at hok
            | ok fs2 =>
              rw [hl] at hok
              have hst : resOk (stage_examples fs2 out_dir).2 = true := hok
              have hloop : resOk (copy_examples fs EXAMPLES).2 = true := by
                rw [hl]
                rfl
              have hLoopTr := copy_examples_filter
                (fun e => isExampleCopy e || isAggCopy out_dir e)
                (fun m => rfl) (fun q => rfl) EXAMPLES fs hcp hloop
              have hStTr := stage_examples_filter_agg
                (fun e => isExampleCopy e || isAggCopy out_dir e) fs2 out_dir
                (fun m => rfl) (fun q => rfl) hagg hst
              show ([Event.echo "Building lumino examples",
                Event.checkCall (installYarnCmd cfg) rootDir,
                Event.checkCall (yarnCmd cfg) rootDir,
                Event.checkCall (yarnCmd cfg ++ [some "build"]) rootDir,
                Event.checkCall (yarnCmd cfg ++ [some "build:examples"]) rootDir] ++
                  (copy_examples fs EXAMPLES).1 ++ (stage_examples fs2 out_dir).1).filter
                    (fun e => isExampleCopy e || isAggCopy out_dir e) =
                EXAMPLES.map (fun ex => Event.copytreeEv (exampleSrc ex) (exampleDest ex)) ++
                  [Event.copytreeEv examples_dir (pjoin out_dir "examples")]
              rw [List.filter_append, List.filter_append, hLoopTr, hStTr]
              simp [isExampleCopy, isAggCopy]
  · rw [hm] at hok
    have hst : resOk (stage_examples fs out_dir).2 = true := hok
    show (Event.echo "already have examples" ::
        (stage_examples fs out_dir).1).filter
          (fun e => isExampleCopy e || isAggCopy out_dir e) =
      [Event.copytreeEv examples_dir (pjoin out_dir "examples")]
    rw [List.filter_cons_of_neg (by simp [isExampleCopy, isAggCopy])]
    exact stage_examples_filter_agg _ fs out_dir
      (fun m => rfl) (fun q => rfl) hagg hst

/-- Witness for the amended C4: a concrete marker-absent run performs the
three per-example copies followed by the aggregated copy. -/
theorem build_examples_staging_order_witness :
    resOk (build_examples cfgOk fsExBuild ["outw"]).2 = true ∧
      (build_examples cfgOk fsExBuild ["outw"]).1.filter
          (fun e => isExampleCopy e || isAggCopy ["outw"] e) =
        (if fsExBuild.existsPath example_index then
          [Event.copytreeEv examples_dir (pjoin ["outw"] "examples")]
         else EXAMPLES.map (fun ex => Event.copytreeEv (exampleSrc ex) (exampleDest ex)) ++
           [Event.copytreeEv examples_dir (pjoin ["outw"] "examples")]) :=
  ⟨by decide, build_examples_staging_order cfgOk fsExBuild ["outw"] (by decide)⟩

/-- C6: the module-level `version` value is exactly the string stored under
the `version` field of the parsed JSON content of `package.json`. -/
theorem version_from_manifest (parse : String → Except Err JValue) (fs : FS)
    (s : String) (fields : List (String × JValue)) (v : String)
    (hfile : fs.lookup package_json = some s)
    (hparse : parse s = .ok (.obj fields))
    (hfield : jlookup fields "version" = some (.str v)) :
    moduleLoadVersion parse fs = .ok (.str v) := by
  simp [moduleLoadVersion, hfile, hparse, getItem, hfield]

/-- Witness for C6: a concrete manifest with `version` set to `2025.3.0`
loads exactly that string. -/
theorem version_from_manifest_witness :
    fsPkg.lookup package_json = some "manifest-content" ∧
      parseFixed "manifest-content" =
        .ok (.obj [("name", JValue.str "lumino"), ("version", JValue.str "2025.3.0")]) ∧
      jlookup [("name", JValue.str "lumino"), ("version", JValue.str "2025.3.0")]
          "version" = some (.str "2025.3.0") ∧
      moduleLoadVersion parseFixed fsPkg = .ok (.str "2025.3.0") :=
  ⟨rfl, rfl, rfl,
   version_from_manifest parseFixed fsPkg "manifest-content"
     [("name", JValue.str "lumino"), ("version", JValue.str "2025.3.0")]
     "2025.3.0" rfl rfl rfl⟩

/-- C7: no exception is caught.  When the first external command fails with
`e`, `build_api_docs` and `build_examples` abort immediately with that very
error, having performed nothing after the failing call; `setup` aborts at
the same point, never reaching `build_examples`; and a filesystem error
(missing `api_index.html` source during the final overlay copy) likewise
propagates, with no step performed after the failure. -/
theorem failures_abort_run (cfg : Config) (fs : FS) (out_dir : FPath)
    (e : Err) (c : String)
    (hex : cfg.exec (installYarnCmd cfg) rootDir = some e) :
    (fs.existsPath api_index = false →
      build_api_docs cfg fs out_dir =
        ([Event.echo "Building lumino API docs",
          Event.checkCall (installYarnCmd cfg) rootDir], .error e)) ∧
    (fs.existsPath example_index = false →
      build_examples cfg fs out_dir =
        ([Event.echo "Building lumino examples",
          Event.checkCall (installYarnCmd cfg) rootDir], .error e)) ∧
    (fs.lookup changelog_src = some c → fs.existsPath api_index = false →
      setup cfg fs out_dir =
        ([Event.copyEv changelog_src changelog_dest, Event.addCss "css/custom.css",
          Event.echo "Building lumino API docs",
          Event.checkCall (installYarnCmd cfg) rootDir], .error e)) ∧
    (fs.existsPath api_index = true →
      fs.existsPath (pjoin out_dir "api") = false →
      fs.lookup api_index_src = none →
      build_api_docs cfg fs out_dir =
        ([Event.echo ("already have " ++ pathStr api_index),
          Event.echo ("Copying " ++ pathStr docs_api ++ " -> " ++
            pathStr (pjoin out_dir "api")),
          Event.copytreeEv docs_api (pjoin out_dir "api")],
         .error (.fileNotFound api_index_src))) := by
  refine ⟨?_, ?_, ?_, ?_⟩
  · intro hm
    simp only [build_api_docs, hm]
    rw [hex]
    rfl
  · intro hm
    simp only [build_examples, hm]
    rw [hex]
    rfl
  · intro hcl hm
    have hcopy : fs.copy changelog_src changelog_dest =
        .ok ⟨(changelog_dest, c) ::
          fs.files.filter (fun f => !(f.1 == changelog_dest))⟩ := by
      rw [FS.copy, hcl]
    have hrest : (fs.files.filter (fun f => !(f.1 == changelog_dest))).any
        (fun f => api_index.isPrefixOf f.1) = false := by
      rw [List.any_eq_false]
      intro x hx hpx
      have hx2 : x ∈ fs.files := (List.mem_filter.mp hx).1
      have hfx := (existsPath_eq_false_iff fs api_index).mp hm x hx2
      rw [hfx] at hpx
      cases hpx
    have hhead : api_index.isPrefixOf changelog_dest = false := by decide
    have hm2 : (FS.mk ((changelog_dest, c) ::
        fs.files.filter (fun f => !(f.1 == changelog_dest)))).existsPath
          api_index = false := by
      simp [FS.existsPath, List.any_cons, hrest, hhead]
    have hbuild : build_api_docs cfg (FS.mk ((changelog_dest, c) ::
        fs.files.filter (fun f => !(f.1 == changelog_dest)))) out_dir =
        ([Event.echo "Building lumino API docs",
          Event.checkCall (installYarnCmd cfg) rootDir], .error e) := by
      simp only [build_api_docs, hm2]
      rw [hex]
      rfl
    simp only [setup, hcopy, hbuild]
    rfl
  · intro hm hdne hnosrc
    have hsrcEx : fs.existsPath docs_api = true := existsPath_mono (by decide) hm
    have hct : fs.copytree docs_api (pjoin out_dir "api") =
        .ok ⟨fs.files ++ mapTree docs_api (pjoin out_dir "api") fs.files⟩ := by
      rw [FS.copytree, hsrcEx, hdne]
      rfl
    have hlk2 : (FS.mk (fs.files ++
        mapTree docs_api (pjoin out_dir "api") fs.files)).lookup
          api_index_src = none := by
      show ((fs.files ++ mapTree docs_api (pjoin out_dir "api") fs.files).find?
        (fun f => f.1 == api_index_src)).map (fun f => f.2) = none
      rw [List.find?_append, find?_eq_none_of_lookup hnosrc,
        find?_mapTree_none _ _ _ _ (api_dest_not_prefix_src out_dir)]
      rfl
    have hcp : (FS.mk (fs.files ++
        mapTree docs_api (pjoin out_dir "api") fs.files)).copy
          api_index_src (pjoin (pjoin out_dir "api") "index.html") =
        .error (.fileNotFound api_index_src) := by
      rw [FS.copy, hlk2]
    simp only [build_api_docs, stage_api, hm, hdne, Bool.false_eq_true,
      Bool.true_eq_false, if_true, if_false, ite_true, ite_false, hct, hcp]
    rfl

/-- Witness for C7: concrete failing runs of all three functions, and the
filesystem-error case, each aborting with the first error raised. -/
theorem failures_abort_run_witness :
    build_api_docs cfgFail fsC7 ["out"] =
        ([Event.echo "Building lumino API docs",
          Event.checkCall (installYarnCmd cfgFail) rootDir], .error errNpm) ∧
      build_examples cfgFail fsC7 ["out"] =
        ([Event.echo "Building lumino examples",
          Event.checkCall (installYarnCmd cfgFail) rootDir], .error errNpm) ∧
      setup cfgFail fsC7 ["out"] =
        ([Event.copyEv changelog_src changelog_dest, Event.addCss "css/custom.css",
          Event.echo "Building lumino API docs",
          Event.checkCall (installYarnCmd cfgFail) rootDir], .error errNpm) ∧
      build_api_docs cfgFail fsC7b ["out"] =
        ([Event.echo ("already have " ++ pathStr api_index),
          Event.echo ("Copying " ++ pathStr docs_api ++ " -> " ++
            pathStr (pjoin ["out"] "api")),
          Event.copytreeEv docs_api (pjoin ["out"] "api")],
         .error (.fileNotFound api_index_src)) :=
  ⟨(failures_abort_run cfgFail fsC7 ["out"] errNpm "changelog body" rfl).1 (by decide),
   (failures_abort_run cfgFail fsC7 ["out"] errNpm "changelog body" rfl).2.1 (by decide),
   (failures_abort_run cfgFail fsC7 ["out"] errNpm "changelog body" rfl).2.2.1
     (by decide) (by decide),
   (failures_abort_run cfgFail fsC7b ["out"] errNpm "unused" rfl).2.2.2
     (by decide) (by decide) (by decide)⟩

/-- C8: every successful `setup(app)` run copies the changelog into the
docs source tree, registers the custom stylesheet, then runs
`build_api_docs` and finally `build_examples`, both on the app's output
directory, in this order. -/
theorem setup_sequence (cfg : Config) (fs : FS) (out_dir : FPath)
    (hok : resOk (setup cfg fs out_dir).2 = true) :
    ∃ fs1, fs.copy changelog_src changelog_dest = .ok fs1 ∧
      resOk (build_api_docs cfg fs1 out_dir).2 = true ∧
      (setup cfg fs out_dir).1 =
        Event.copyEv changelog_src changelog_dest :: Event.addCss "css/custom.css" ::
          ((build_api_docs cfg fs1 out_dir).1 ++
            (build_examples cfg (theFS (build_api_docs cfg fs1 out_dir).2) out_dir).1) ∧
      (setup cfg fs out_dir).2 =
        (build_examples cfg (theFS (build_api_docs cfg fs1 out_dir).2) out_dir).2 := by
  simp only [setup] at hok ⊢
  cases hcp : fs.copy changelog_src changelog_dest with
  | error e =>
    rw [hcp] at hok
    simp [resOk] at hok
  | ok fs1 =>
    simp only [hcp] at hok
    cases hA : build_api_docs cfg fs1 out_dir with
    | mk tA rA =>
      rw [hA] at hok
      cases rA with
      | error e => simp [resOk] at hok
      | ok fs2 =>
        exact ⟨fs1, rfl, by rw [hA]; rfl, by simp [hA, theFS], by simp [hA, theFS]⟩

/-- Witness for C8: a concrete checkout on which `setup` succeeds end to
end, with the trace decomposing as stated. -/
theorem setup_sequence_witness :
    resOk (setup cfgOk fsSetupGood ["out"]).2 = true ∧
      ∃ fs1, FS.copy fsSetupGood changelog_src changelog_dest = .ok fs1 ∧
        resOk (build_api_docs cfgOk fs1 ["out"]).2 = true ∧
        (setup cfgOk fsSetupGood ["out"]).1 =
          Event.copyEv changelog_src changelog_dest :: Event.addCss "css/custom.css" ::
            ((build_api_docs cfgOk fs1 ["out"]).1 ++
              (build_examples cfgOk (theFS (build_api_docs cfgOk fs1 ["out"]).2) ["out"]).1) ∧
        (setup cfgOk fsSetupGood ["out"]).2 =
          (build_examples cfgOk (theFS (build_api_docs cfgOk fs1 ["out"]).2) ["out"]).2 :=
  ⟨by decide, setup_sequence cfgOk fsSetupGood ["out"] (by decide)⟩
